import Mathlib

/-!
Verification development for the authentication and session-lifecycle engine
of the labyrinth-nexus-api repository.

The definitions below are a shallow embedding of the TypeScript sources
`src/auth/auth.service.ts` (class AuthService), `src/session/session.service.ts`
(class SessionService) and the slice of `src/user/user.service.ts` (class
UserService) that the auth flows call.  Timestamps are milliseconds since the
epoch, modelled as natural numbers; the relational store is modelled as a list
of records; Prisma calls that can throw (update on a missing row) return
`Option`; external primitives (bcrypt comparison, SHA-256 token hashing, JWT
signing and verification, UUID generation) are supplied as parameters, since
the engine only ever observes their results.
-/

namespace LabyrinthAuth

/-- Milliseconds since the Unix epoch (`Date` values in the TypeScript code). -/
abbrev Time := Nat

/-- The slice of a Prisma `User` row read and written by `AuthService`
(`src/user/user.service.ts`, selects `userSelect`).  `failedLoginAttempts` is
an `Option` because the code guards it with `|| 0`; `roles` are opaque labels
attached by the join in `transformUser` and never inspected by the flows
verified here, so they are kept as a list of names. -/
structure UserRec where
  id : String
  email : String
  passwordHash : String
  isActive : Bool
  failedLoginAttempts : Option Nat
  lockedUntil : Option Time
  lastLoginAt : Option Time
  roles : List String
deriving Repr, DecidableEq

/-- A Prisma `Session` row (`src/session/session.service.ts`, select
`safeSessionSelect` plus the `refreshTokenHash` column that the select hides
but the unique lookup uses). -/
structure Session where
  id : Nat
  userId : String
  sessionId : String
  refreshTokenHash : String
  ipAddress : Option String
  userAgent : Option String
  expiresAt : Time
  isRevoked : Bool
  previousSessionId : Option Nat
  createdAt : Time
  updatedAt : Time
  lastUsedAt : Option Time
deriving Repr, DecidableEq

abbrev SessionStore := List Session
abbrev UserStore := List UserRec

/-- `CreateSessionDto` (session `dto`): the exact fields `AuthService.generateTokens`
passes to `SessionService.create`. -/
structure CreateSessionDto where
  userId : String
  sessionId : String
  refreshTokenHash : String
  ipAddress : Option String
  userAgent : Option String
  expiresAt : Time
  previousSessionId : Option Nat
deriving Repr, DecidableEq

/-- External primitives consumed by `AuthService`: `bcrypt.compare`,
the SHA-256 `hashToken` helper, and `jwtService.verify` (modelled by its
boolean outcome on the presented token). -/
structure CryptoEnv where
  bcryptCompare : String → String → Bool
  hashToken : String → String
  jwtVerifyOk : String → Bool

/-- The values minted inside one `generateTokens` call:
`crypto.randomUUID()` and the two `jwtService.sign` outputs.  They are inputs
of the embedding because the engine treats them as opaque strings. -/
structure TokenMint where
  sessionId : String
  accessToken : String
  refreshToken : String
deriving Repr, DecidableEq

/-! ## SessionService (src/session/session.service.ts) -/

/-- `SessionService.findByRefreshTokenHash`: `prisma.session.findUnique({ where:
{ refreshTokenHash } })`.  `refreshTokenHash` is a unique column, modelled as
first match in the list. -/
def findByRefreshTokenHash (store : SessionStore) (tokenHash : String) : Option Session :=
  store.find? (fun s => s.refreshTokenHash == tokenHash)

/-- Modelled from the spec: the store-assigned autoincrement `id` of a newly
created `Session` row (the Prisma schema itself is not under `src/`; the spec
calls `id` a store-assigned identifier). -/
def freshId (store : SessionStore) : Nat :=
  (store.map (fun s => s.id)).foldr max 0 + 1

/-- `SessionService.create`: `prisma.session.create({ data: dto })`.
The new row starts non-revoked with no `previous` usage stamp; `isRevoked =
false` and the timestamps are the schema defaults (modelled from the spec:
sessions are created live, the schema file is not under `src/`). -/
def createSession (store : SessionStore) (dto : CreateSessionDto) (now : Time) :
    Session × SessionStore :=
  let s : Session :=
    { id := freshId store
      userId := dto.userId
      sessionId := dto.sessionId
      refreshTokenHash := dto.refreshTokenHash
      ipAddress := dto.ipAddress
      userAgent := dto.userAgent
      expiresAt := dto.expiresAt
      isRevoked := false
      previousSessionId := dto.previousSessionId
      createdAt := now
      updatedAt := now
      lastUsedAt := none }
  (s, store ++ [s])

/-- The row mutation performed by `SessionService.revokeSession`:
`data: { isRevoked: true, updatedAt: new Date() }`. -/
def applyRevoke (now : Time) (s : Session) : Session :=
  { s with isRevoked := true, updatedAt := now }

/-- The effect of `SessionService.revokeSession` on the table, ignoring the
missing-row throw (used where the row is known to exist). -/
def revokeSessionTotal (store : SessionStore) (id : Nat) (now : Time) : SessionStore :=
  store.map (fun s => if s.id == id then applyRevoke now s else s)

/-- `SessionService.revokeSession`: `prisma.session.update({ where: { id },
data: { isRevoked: true, updatedAt } })`.  Prisma `update` throws (P2025) when
no row has the given `id`; that outcome is `none`. -/
def revokeSession (store : SessionStore) (id : Nat) (now : Time) : Option SessionStore :=
  if store.any (fun s => s.id == id) then some (revokeSessionTotal store id now) else none

/-- `SessionService.revokeAllUserSessions`: `prisma.session.updateMany({ where:
{ userId, isRevoked: false }, data: { isRevoked: true, updatedAt } })`,
returning the affected-row count. -/
def revokeAllUserSessions (store : SessionStore) (userId : String) (now : Time) :
    SessionStore × Nat :=
  (store.map (fun s =>
      if s.userId == userId && !s.isRevoked then applyRevoke now s else s),
   (store.filter (fun s => s.userId == userId && !s.isRevoked)).length)

/-- `SessionService.updateLastUsed`: `prisma.session.update({ where: { id },
data: { lastUsedAt: new Date() } })`; `none` models the missing-row throw. -/
def updateLastUsed (store : SessionStore) (id : Nat) (now : Time) : Option SessionStore :=
  if store.any (fun s => s.id == id) then
    some (store.map (fun s => if s.id == id then { s with lastUsedAt := some now } else s))
  else none

/-- `SessionService.cleanupExpiredSessions`: `prisma.session.deleteMany({
where: { expiresAt: { lt: now } } })`, returning the deleted-row count. -/
def cleanupExpiredSessions (store : SessionStore) (now : Time) : SessionStore × Nat :=
  (store.filter (fun s => !(s.expiresAt < now)),
   (store.filter (fun s => s.expiresAt < now)).length)

/-- One day in milliseconds. -/
def dayMs : Time := 24 * 60 * 60 * 1000

/-- `SessionService.cleanupRevokedSessions`: deletes rows with `isRevoked =
true` whose `updatedAt` is before `now - daysOld` days (truncated at 0). -/
def cleanupRevokedSessions (store : SessionStore) (now : Time) (daysOld : Nat) :
    SessionStore × Nat :=
  (store.filter (fun s => !(s.isRevoked && s.updatedAt < now - daysOld * dayMs)),
   (store.filter (fun s => s.isRevoked && s.updatedAt < now - daysOld * dayMs)).length)

/-! ## UserService slice (src/user/user.service.ts) -/

/-- `UserService.findByEmail`: `prisma.user.findUnique({ where: { email } })`
(`email` unique, modelled as first match). -/
def findByEmail (users : UserStore) (email : String) : Option UserRec :=
  users.find? (fun u => u.email == email)

/-- `UserService.update` restricted to the plain-field updates `AuthService`
issues (no password, no role changes): `prisma.user.update({ where: { id },
data })`.  The callers always pass the `id` of a row they just read, so the
missing-row throw is unreachable and the table-map semantics is used. -/
def userUpdate (users : UserStore) (id : String) (f : UserRec → UserRec) : UserStore :=
  users.map (fun u => if u.id == id then f u else u)

/-! ## AuthService (src/auth/auth.service.ts) -/

/-- The NestJS exceptions `AuthService` throws, by class and message (both are
part of the caller-visible HTTP response). -/
inductive AuthError where
  | badRequest (msg : String)
  | unauthorized (msg : String)
  | conflict (msg : String)
deriving Repr, DecidableEq

/-- `AuthService.isValidEmail`, the regex `[^\s@]+@[^\s@]+\.[^\s@]+` anchored
on both sides: exactly one at-sign, no whitespace anywhere, nonempty local
part, and a dot strictly inside the domain part. -/
def isValidEmail (email : String) : Bool :=
  match email.toList.splitOn '@' with
  | [l, d] =>
    !l.isEmpty && !d.isEmpty &&
    l.all (fun c => !c.isWhitespace) && d.all (fun c => !c.isWhitespace) &&
    (d.drop 1).dropLast.contains '.'
  | _ => false

/-- JavaScript `String.prototype.trim`: strip whitespace from both ends
(defined over the character list so that it evaluates in the kernel). -/
def jsTrim (s : String) : String :=
  String.mk (((s.data.dropWhile Char.isWhitespace).reverse.dropWhile
    Char.isWhitespace).reverse)

/-- JavaScript `String.prototype.toLowerCase` on the ASCII identifiers this
engine handles. -/
def jsToLower (s : String) : String :=
  String.mk (s.data.map Char.toLower)

/-- `user.lockedUntil && user.lockedUntil > new Date()`. -/
def lockActive (lockedUntil : Option Time) (now : Time) : Bool :=
  match lockedUntil with
  | none => false
  | some t => now < t

/-- `(user.failedLoginAttempts || 0) + 1` in `handleFailedLogin`. -/
def nextAttempts (u : UserRec) : Nat :=
  u.failedLoginAttempts.getD 0 + 1

/-- `lockDuration = 15 * 60 * 1000` (15 minutes). -/
def lockDurationMs : Time := 15 * 60 * 1000

/-- `maxAttempts = 5`. -/
def maxAttempts : Nat := 5

/-- `AuthService.handleFailedLogin`: increment the counter; at or above the
threshold also set `lockedUntil = now + lockDuration`, otherwise persist the
incremented counter only. -/
def handleFailedLogin (users : UserStore) (now : Time) (u : UserRec) : UserStore :=
  if maxAttempts ≤ nextAttempts u then
    userUpdate users u.id (fun w =>
      { w with failedLoginAttempts := some (nextAttempts u),
               lockedUntil := some (now + lockDurationMs) })
  else
    userUpdate users u.id (fun w =>
      { w with failedLoginAttempts := some (nextAttempts u) })

/-- The three ways `AuthService.validateUser` can finish: throw, return `null`
(wrong password), or return the safe user view (the record minus
`passwordHash`; the full record is kept here, the strip is a projection the
claims do not touch). -/
inductive VUOutcome where
  | threw (e : AuthError)
  | invalidPassword
  | ok (u : UserRec)
deriving Repr, DecidableEq

/-- Result of `AuthService.validateUser`: its outcome, the user table after
the call, and whether `bcrypt.compare` was invoked on the way. -/
structure VUResult where
  outcome : VUOutcome
  users : UserStore
  compared : Bool
deriving Repr, DecidableEq

/-- `AuthService.validateUser`, line by line: email-format check, nonempty
password check, lookup by the lowercased-and-trimmed email, inactive check,
lock check, `bcrypt.compare`, then either `handleFailedLogin` + `null` or the
reset-and-stamp update + safe view. -/
def validateUser (env : CryptoEnv) (users : UserStore) (now : Time)
    (email password : String) : VUResult :=
  if !isValidEmail email then
    ⟨.threw (.badRequest "Invalid email format"), users, false⟩
  else if (jsTrim password).isEmpty then
    ⟨.threw (.badRequest "Password is required"), users, false⟩
  else
    match findByEmail users (jsTrim (jsToLower email)) with
    | none => ⟨.threw (.unauthorized "Invalid credentials"), users, false⟩
    | some u =>
      if !u.isActive then
        ⟨.threw (.unauthorized "Account is inactive"), users, false⟩
      else if lockActive u.lockedUntil now then
        ⟨.threw (.unauthorized "Account is temporarily locked"), users, false⟩
      else if !(env.bcryptCompare password u.passwordHash) then
        ⟨.invalidPassword, handleFailedLogin users now u, true⟩
      else
        ⟨.ok u,
         userUpdate users u.id (fun w =>
           { w with failedLoginAttempts := some 0, lockedUntil := none,
                    lastLoginAt := some now }),
         true⟩

/-- The `AuthResult` payload (`src/auth/interfaces/auth-result.interface.ts`). -/
structure AuthResult where
  accessToken : String
  refreshToken : String
  user : UserRec
deriving Repr, DecidableEq

/-- `JWT_REFRESH_EXPIRY` store horizon: `expiresAt.setDate(getDate() + 7)`,
modelled as seven days in milliseconds. -/
def sevenDaysMs : Time := 7 * dayMs

/-- `AuthService.generateTokens`: hash the freshly signed refresh token and
persist the new session row carrying `previousSessionId`; the token strings
and the random `sessionId` claim are the `mint` inputs. -/
def generateTokens (env : CryptoEnv) (store : SessionStore) (now : Time)
    (user : UserRec) (ip ua : Option String) (previousSessionId : Option Nat)
    (mint : TokenMint) : AuthResult × SessionStore :=
  let refreshTokenHash := env.hashToken mint.refreshToken
  let store' := (createSession store
    { userId := user.id
      sessionId := mint.sessionId
      refreshTokenHash := refreshTokenHash
      ipAddress := ip
      userAgent := ua
      expiresAt := now + sevenDaysMs
      previousSessionId := previousSessionId } now).2
  ({ accessToken := mint.accessToken, refreshToken := mint.refreshToken, user := user },
   store')

/-- How `AuthService.refreshToken` can finish: success payload, a thrown
NestJS exception, or a crash (`crashed` covers the two situations the code
cannot reach on a well-formed store: a dangling `session.user` join and a
P2025 throw on the row that was just read). -/
inductive RotateResult where
  | ok (r : AuthResult)
  | threw (e : AuthError)
  | crashed
deriving Repr, DecidableEq

/-- Which Prisma client a store mutation goes through: the service-injected
base client (`this.prisma`) or the `tx` client handed to the
`prisma.$transaction` callback.  In Prisma only mutations issued through `tx`
participate in the interactive transaction. -/
inductive DbClient where
  | base
  | tx
deriving Repr, DecidableEq

/-- Result of `AuthService.refreshToken`: outcome, the session table after the
call, and the clients used by the mutations issued lexically inside the
`prisma.$transaction` callback (rotation path only). -/
structure RotationOutput where
  result : RotateResult
  store : SessionStore
  txScopeMutations : List DbClient
deriving Repr, DecidableEq

/-- The rotation path mutations are all inside the transaction exactly when
there is at least one and each goes through the `tx` client. -/
def rotationMutationsTransactional (out : RotationOutput) : Bool :=
  !out.txScopeMutations.isEmpty && out.txScopeMutations.all (fun c => c == DbClient.tx)

/-- `AuthService.refreshToken`, branch by branch: hash lookup; reuse-detection
branch (`revokeAllUserSessions` then throw); expiry check; owner-inactive
check via the joined `session.user` row (looked up in `users`); JWT
re-verification with fail-closed revoke; then the rotation wrapped in
`prisma.$transaction(async (tx) => ...)`.  Inside that callback the source
calls `this.sessionService.revokeSession` and, through `generateTokens`,
`this.sessionService.create` — both use the service base client and the bound
`tx` is never used, so both mutations are tagged `DbClient.base`. -/
def refreshTokenOp (env : CryptoEnv) (users : UserStore) (store : SessionStore)
    (now : Time) (refreshTok : String) (ip ua : Option String) (mint : TokenMint) :
    RotationOutput :=
  match findByRefreshTokenHash store (env.hashToken refreshTok) with
  | none => ⟨.threw (.unauthorized "Invalid refresh token"), store, []⟩
  | some session =>
    if session.isRevoked then
      ⟨.threw (.unauthorized
          "Token reuse detected. All sessions have been revoked for security."),
       (revokeAllUserSessions store session.userId now).1, []⟩
    else if session.expiresAt < now then
      ⟨.threw (.unauthorized "Refresh token expired"), store, []⟩
    else
      match users.find? (fun u => u.id == session.userId) with
      | none => ⟨.crashed, store, []⟩
      | some owner =>
        if !owner.isActive then
          ⟨.threw (.unauthorized "Account is inactive"), store, []⟩
        else if !(env.jwtVerifyOk refreshTok) then
          match revokeSession store session.id now with
          | some store1 => ⟨.threw (.unauthorized "Invalid refresh token"), store1, []⟩
          | none => ⟨.crashed, store, []⟩
        else
          match revokeSession store session.id now with
          | none => ⟨.crashed, store, [DbClient.base]⟩
          | some store1 =>
            let r := generateTokens env store1 now owner ip ua (some session.id) mint
            ⟨.ok r.1, r.2, [DbClient.base, DbClient.base]⟩

/-- `AuthService.logout`: when the token string is nonempty (JS truthiness),
hash it, look the session up, revoke it when found; in every branch clear the
refresh cookie (the `Bool` in the payload).  `none` models an escaped
exception; the only candidate is Prisma P2025 on the row just read. -/
def logout (env : CryptoEnv) (store : SessionStore) (now : Time)
    (refreshTok : String) : Option (SessionStore × Bool) :=
  if refreshTok != "" then
    match findByRefreshTokenHash store (env.hashToken refreshTok) with
    | some session =>
      match revokeSession store session.id now with
      | some store' => some (store', true)
      | none => none
    | none => some (store, true)
  else some (store, true)

/-! ## Concrete fixtures used by witnesses and counterexamples -/

/-- A concrete external-primitive environment: comparison is string equality,
token hashing prepends a marker, signature verification accepts. -/
def envDemo : CryptoEnv :=
  { bcryptCompare := fun p h => p == h
    hashToken := fun t => String.append "sha:" t
    jwtVerifyOk := fun _ => true }

/-- An active demo account with a clean lockout state. -/
def userActive : UserRec :=
  { id := "u1", email := "a@x.com", passwordHash := "Secret123", isActive := true,
    failedLoginAttempts := none, lockedUntil := none, lastLoginAt := none,
    roles := ["USER"] }

/-- An inactive demo account that is also under an active lock. -/
def userInactiveLocked : UserRec :=
  { id := "u2", email := "b@x.com", passwordHash := "Secret123", isActive := false,
    failedLoginAttempts := some 1, lockedUntil := some 2000, lastLoginAt := none,
    roles := ["USER"] }

/-- A live session of `userActive` whose hash matches the token `"tok"` under
`envDemo`. -/
def sessionLive : Session :=
  { id := 1, userId := "u1", sessionId := "sid1", refreshTokenHash := "sha:tok",
    ipAddress := none, userAgent := none, expiresAt := 10 ^ 13, isRevoked := false,
    previousSessionId := none, createdAt := 0, updatedAt := 0, lastUsedAt := none }

/-- The same lineage already revoked (the state after a legitimate rotation). -/
def sessionRevoked : Session :=
  { sessionLive with
      id := 2
      sessionId := "sid2"
      refreshTokenHash := "sha:old"
      isRevoked := true }

/-- A second live session of the same owner. -/
def sessionOtherLive : Session :=
  { sessionLive with id := 3, sessionId := "sid3", refreshTokenHash := "sha:other" }

/-- A live session of a different owner. -/
def sessionOtherOwner : Session :=
  { sessionLive with
      id := 4
      userId := "u9"
      sessionId := "sid4"
      refreshTokenHash := "sha:owner9" }

/-- The token minted during the demo rotation. -/
def mintDemo : TokenMint :=
  { sessionId := "sid-new", accessToken := "acc-new", refreshToken := "ref-new" }

/-! ## Shared lemmas -/

/-- Every record produced by `revokeAllUserSessions` that belongs to the
targeted owner is revoked. -/
theorem revokeAll_mem_owner_revoked (store : SessionStore) (uid : String) (now : Time) :
    ∀ s' ∈ (revokeAllUserSessions store uid now).1, s'.userId = uid → s'.isRevoked = true := by
  intro s' hs' hu
  simp only [revokeAllUserSessions, List.mem_map] at hs'
  obtain ⟨w, hw, rfl⟩ := hs'
  by_cases h : (w.userId == uid && !w.isRevoked) = true
  · rw [if_pos h]; rfl
  · rw [if_neg h] at hu ⊢
    subst hu
    simpa using h

/-- Mapping a function that fixes every element kept by the filter and does
not change the filter verdict leaves the filtered list unchanged. -/
theorem filter_map_eq_filter {α : Type} (g : α → α) (q : α → Bool) (l : List α)
    (hq : ∀ w, q (g w) = q w) (hfix : ∀ w, q w = true → g w = w) :
    (l.map g).filter q = l.filter q := by
  induction l with
  | nil => rfl
  | cons a l ih =>
    by_cases h : q a = true
    · rw [List.map_cons, List.filter_cons, List.filter_cons, hfix a h, h, ih]
    · have hga : q (g a) = false := by rw [hq]; exact Bool.eq_false_iff.mpr h
      rw [List.map_cons, List.filter_cons, List.filter_cons, hga,
        Bool.eq_false_iff.mpr h, ih]
      simp

/-! ## Claim theorems -/

/-- C7. `revokeAllUserSessions(ownerId)` leaves zero non-revoked sessions for
that owner, and the sessions of every other owner (the sublist with a
different `userId`) are exactly what they were before the call. -/
theorem revokeAll_owner_zero_live_others_untouched_c7 (store : SessionStore)
    (uid : String) (now : Time) :
    (∀ s' ∈ (revokeAllUserSessions store uid now).1, s'.userId = uid → s'.isRevoked = true)
    ∧ (revokeAllUserSessions store uid now).1.filter (fun s => s.userId != uid)
        = store.filter (fun s => s.userId != uid) := by
  refine ⟨revokeAll_mem_owner_revoked store uid now, ?_⟩
  apply filter_map_eq_filter
  · intro w
    by_cases h : (w.userId == uid && !w.isRevoked) = true
    · rw [if_pos h]; rfl
    · rw [if_neg h]
  · intro w hw
    have hne : (w.userId == uid) = false := by
      rcases hbeq : w.userId == uid with _ | _
      · rfl
      · rw [bne_iff_ne] at hw
        exact absurd (eq_of_beq hbeq) hw
    rw [if_neg]
    simp [hne]

/-- C1. When the hash lookup finds a revoked session (the reuse-detection
branch), `refreshToken` throws and afterwards the owner of that session has
zero non-revoked sessions in the store. -/
theorem reuse_detection_revokes_owner_c1 (env : CryptoEnv) (users : UserStore)
    (store : SessionStore) (now : Time) (tok : String) (ip ua : Option String)
    (mint : TokenMint) (s : Session)
    (hfind : findByRefreshTokenHash store (env.hashToken tok) = some s)
    (hrev : s.isRevoked = true) :
    (refreshTokenOp env users store now tok ip ua mint).result
      = .threw (.unauthorized
          "Token reuse detected. All sessions have been revoked for security.")
    ∧ ∀ s' ∈ (refreshTokenOp env users store now tok ip ua mint).store,
        s'.userId = s.userId → s'.isRevoked = true := by
  have hstep : refreshTokenOp env users store now tok ip ua mint
      = ⟨.threw (.unauthorized
            "Token reuse detected. All sessions have been revoked for security."),
         (revokeAllUserSessions store s.userId now).1, []⟩ := by
    unfold refreshTokenOp
    rw [hfind]
    simp [hrev]
  rw [hstep]
  exact ⟨rfl, revokeAll_mem_owner_revoked store s.userId now⟩

/-- Witness for C1 at a concrete store: one revoked lineage, a second live
session of the same owner and one session of another owner. -/
theorem reuse_detection_revokes_owner_c1_witness :
    (refreshTokenOp envDemo [userActive]
        [sessionRevoked, sessionOtherLive, sessionOtherOwner]
        1000 "old" none none mintDemo).result
      = .threw (.unauthorized
          "Token reuse detected. All sessions have been revoked for security.") :=
  (reuse_detection_revokes_owner_c1 envDemo [userActive]
    [sessionRevoked, sessionOtherLive, sessionOtherOwner] 1000 "old" none none
    mintDemo sessionRevoked (by decide) (by decide)).1

/-- C3, counterexample to the claim as stated: in the reuse-detection branch
the caller-visible error is not the generic invalid-token rejection; its
message explicitly announces the detected reuse. -/
theorem reuse_error_not_generic_counterexample_c3 :
    (refreshTokenOp envDemo [userActive] [sessionRevoked, sessionOtherLive]
        1000 "old" none none mintDemo).result
      = .threw (.unauthorized
          "Token reuse detected. All sessions have been revoked for security.")
    ∧ (refreshTokenOp envDemo [userActive] [sessionRevoked, sessionOtherLive]
        1000 "old" none none mintDemo).result
      ≠ .threw (.unauthorized "Invalid refresh token") := by
  decide

/-- C3 as amended: the reuse branch throws the same exception class
(`UnauthorizedException`, HTTP 401 — constructor `.unauthorized`) as the
generic invalid-token rejection, but with a distinct message that reveals the
reuse detection to the caller. -/
theorem reuse_error_same_class_distinct_message_c3 (env : CryptoEnv)
    (users : UserStore) (store : SessionStore) (now : Time) (tok : String)
    (ip ua : Option String) (mint : TokenMint) (s : Session)
    (hfind : findByRefreshTokenHash store (env.hashToken tok) = some s)
    (hrev : s.isRevoked = true) :
    (refreshTokenOp env users store now tok ip ua mint).result
      = .threw (.unauthorized
          "Token reuse detected. All sessions have been revoked for security.")
    ∧ ("Token reuse detected. All sessions have been revoked for security." : String)
      ≠ "Invalid refresh token" := by
  refine ⟨?_, by decide⟩
  unfold refreshTokenOp
  rw [hfind]
  simp [hrev]

/-- Witness for the amended C3. -/
theorem reuse_error_same_class_distinct_message_c3_witness :
    (refreshTokenOp envDemo [userActive] [sessionRevoked]
        1000 "old" none none mintDemo).result
      = .threw (.unauthorized
          "Token reuse detected. All sessions have been revoked for security.") :=
  (reuse_error_same_class_distinct_message_c3 envDemo [userActive] [sessionRevoked]
    1000 "old" none none mintDemo sessionRevoked (by decide) (by decide)).1

/-- C2, evaluated at a failing input (a store holding one valid session for an
active owner).  The functional half of the claim holds: the old session ends
revoked and the new one carries `previousSessionId = old.id`.  The
transactional half does not: both mutations issued inside the
`prisma.$transaction` callback go through the base client — the callback
ignores its `tx` argument — so neither joins the transaction and the two
writes commit independently. -/
theorem rotation_mutations_not_in_transaction_c2 :
    (refreshTokenOp envDemo [userActive] [sessionLive] 1000 "tok" none none
        mintDemo).result
      = .ok { accessToken := "acc-new", refreshToken := "ref-new", user := userActive }
    ∧ ((refreshTokenOp envDemo [userActive] [sessionLive] 1000 "tok" none none
        mintDemo).store.map (fun s => (s.id, s.isRevoked, s.previousSessionId)))
      = [(1, true, none), (2, false, some 1)]
    ∧ (refreshTokenOp envDemo [userActive] [sessionLive] 1000 "tok" none none
        mintDemo).txScopeMutations = [DbClient.base, DbClient.base]
    ∧ rotationMutationsTransactional
        (refreshTokenOp envDemo [userActive] [sessionLive] 1000 "tok" none none
          mintDemo) = false := by
  decide

/-- An active demo account that is under a lock reaching past the demo
instant. -/
def userActiveLocked : UserRec :=
  { userActive with
      id := "u3"
      email := "c@x.com"
      lockedUntil := some 5000
      failedLoginAttempts := some 2 }

/-- C4, counterexample to the claim as stated: for an inactive account the
distinct inactive rejection is produced although the supplied password is
wrong, the account is under an active lock, and `bcrypt.compare` was never
invoked (`compared = false`) — so the rejection is not gated on the lockout
check or a successful hash comparison, and a prober with wrong credentials
learns the activation state. -/
theorem inactive_leak_counterexample_c4 :
    validateUser envDemo [userInactiveLocked] 1000 "b@x.com" "totally-wrong"
      = ⟨.threw (.unauthorized "Account is inactive"), [userInactiveLocked], false⟩
    ∧ envDemo.bcryptCompare "totally-wrong" userInactiveLocked.passwordHash = false
    ∧ lockActive userInactiveLocked.lockedUntil 1000 = true := by
  decide

/-- C4 as amended: the inactive rejection is produced immediately after the
identifier lookup succeeds, before the lockout check and before the
password-hash comparison (the table is untouched and `compared = false`,
whatever the password and lock state are). -/
theorem inactive_rejected_before_lock_and_password_c4 (env : CryptoEnv)
    (users : UserStore) (now : Time) (email pw : String) (u : UserRec)
    (h1 : isValidEmail email = true)
    (h2 : (jsTrim pw).isEmpty = false)
    (h3 : findByEmail users (jsTrim (jsToLower email)) = some u)
    (h4 : u.isActive = false) :
    validateUser env users now email pw
      = ⟨.threw (.unauthorized "Account is inactive"), users, false⟩ := by
  unfold validateUser
  rw [h3]
  simp [h1, h2, h4]

/-- Witness for the amended C4. -/
theorem inactive_rejected_before_lock_and_password_c4_witness :
    validateUser envDemo [userInactiveLocked] 1000 "b@x.com" "Secret123"
      = ⟨.threw (.unauthorized "Account is inactive"), [userInactiveLocked], false⟩ :=
  inactive_rejected_before_lock_and_password_c4 envDemo [userInactiveLocked] 1000
    "b@x.com" "Secret123" userInactiveLocked (by decide) (by decide) (by decide)
    (by decide)

/-- C5, counterexample to the claim as stated: a record whose `lockedUntil`
lies strictly in the future is rejected with the inactive status, not the
temporarily-locked one, when the account is also inactive — the inactive
check runs first. -/
theorem locked_but_inactive_counterexample_c5 :
    userInactiveLocked.lockedUntil = some 2000 ∧ (1000 : Nat) < 2000
    ∧ (validateUser envDemo [userInactiveLocked] 1000 "b@x.com" "Secret123").outcome
        = .threw (.unauthorized "Account is inactive")
    ∧ (validateUser envDemo [userInactiveLocked] 1000 "b@x.com" "Secret123").outcome
        ≠ .threw (.unauthorized "Account is temporarily locked") := by
  decide

/-- C5 as amended: every authentication attempt on an active record whose
`lockedUntil` is non-null and strictly greater than `now` is rejected as
temporarily locked, whatever password is supplied, and `bcrypt.compare` is
not invoked (the lock check precedes the hash comparison). -/
theorem active_locked_rejected_regardless_of_password_c5 (env : CryptoEnv)
    (users : UserStore) (now : Time) (email pw : String) (u : UserRec) (t : Time)
    (h1 : isValidEmail email = true)
    (h2 : (jsTrim pw).isEmpty = false)
    (h3 : findByEmail users (jsTrim (jsToLower email)) = some u)
    (h4 : u.isActive = true)
    (h5 : u.lockedUntil = some t)
    (h6 : now < t) :
    validateUser env users now email pw
      = ⟨.threw (.unauthorized "Account is temporarily locked"), users, false⟩ := by
  unfold validateUser
  rw [h3]
  have hlock : lockActive u.lockedUntil now = true := by
    rw [h5]
    simpa [lockActive] using h6
  simp [h1, h2, h4, hlock]

/-- Witness for the amended C5: the supplied password is the correct one and
the attempt is still rejected as locked. -/
theorem active_locked_rejected_regardless_of_password_c5_witness :
    validateUser envDemo [userActiveLocked] 1000 "c@x.com" "Secret123"
      = ⟨.threw (.unauthorized "Account is temporarily locked"),
         [userActiveLocked], false⟩ :=
  active_locked_rejected_regardless_of_password_c5 envDemo [userActiveLocked] 1000
    "c@x.com" "Secret123" userActiveLocked 5000 (by decide) (by decide) (by decide)
    (by decide) (by decide) (by decide)

/-- C6. On a wrong-password attempt against an unlocked active account the
persisted record for that user carries `failedAttempts = previous + 1`; when
the new count reaches the threshold 5 the lock is set to `now + 15` minutes,
otherwise `lockedUntil` is untouched; the counter strictly increases and an
existing (necessarily elapsed) lock is never shortened. -/
theorem failed_login_increments_then_locks_c6 (env : CryptoEnv) (users : UserStore)
    (now : Time) (email pw : String) (u u' : UserRec)
    (h1 : isValidEmail email = true)
    (h2 : (jsTrim pw).isEmpty = false)
    (h3 : findByEmail users (jsTrim (jsToLower email)) = some u)
    (h4 : u.isActive = true)
    (h5 : lockActive u.lockedUntil now = false)
    (h6 : env.bcryptCompare pw u.passwordHash = false)
    (hnodup : (users.map (fun w => w.id)).Nodup)
    (hmem : u' ∈ (validateUser env users now email pw).users)
    (hid : u'.id = u.id) :
    u'.failedLoginAttempts = some (u.failedLoginAttempts.getD 0 + 1)
    ∧ (5 ≤ u.failedLoginAttempts.getD 0 + 1 →
        u'.lockedUntil = some (now + 15 * 60 * 1000))
    ∧ (u.failedLoginAttempts.getD 0 + 1 < 5 → u'.lockedUntil = u.lockedUntil)
    ∧ u.failedLoginAttempts.getD 0 < u.failedLoginAttempts.getD 0 + 1
    ∧ (∀ t t', u.lockedUntil = some t → u'.lockedUntil = some t' → t ≤ t') := by
  have hu : u ∈ users := by
    have h3' : users.find? (fun w => w.email == jsTrim (jsToLower email)) = some u := h3
    exact List.mem_of_find?_eq_some h3'
  have hres : (validateUser env users now email pw).users
      = handleFailedLogin users now u := by
    unfold validateUser
    rw [h3]
    simp [h1, h2, h4, h5, h6]
  rw [hres] at hmem
  have hold : ∀ t, u.lockedUntil = some t → t ≤ now := by
    intro t ht
    have := h5
    rw [ht] at this
    simpa [lockActive] using this
  unfold handleFailedLogin at hmem
  by_cases hth : maxAttempts ≤ nextAttempts u
  · rw [if_pos hth] at hmem
    simp only [userUpdate, List.mem_map] at hmem
    obtain ⟨w, hw, rfl⟩ := hmem
    by_cases hcase : (w.id == u.id) = true
    · rw [if_pos hcase] at hid ⊢
      have hwu : w = u :=
        List.inj_on_of_nodup_map hnodup hw hu (eq_of_beq hcase)
      subst hwu
      refine ⟨rfl, fun _ => rfl,
        fun hlt => absurd hth (by simp only [maxAttempts, nextAttempts] at hlt ⊢; omega),
        Nat.lt_succ_self _, ?_⟩
      intro t t' ht ht'
      have ht2 : t' = now + lockDurationMs := by
        simpa using ht'.symm
      rw [ht2]
      exact le_trans (hold t ht) (Nat.le_add_right now lockDurationMs)
    · rw [if_neg hcase] at hid
      exact absurd (beq_iff_eq.mpr hid) hcase
  · rw [if_neg hth] at hmem
    simp only [userUpdate, List.mem_map] at hmem
    obtain ⟨w, hw, rfl⟩ := hmem
    by_cases hcase : (w.id == u.id) = true
    · rw [if_pos hcase] at hid ⊢
      have hwu : w = u :=
        List.inj_on_of_nodup_map hnodup hw hu (eq_of_beq hcase)
      subst hwu
      refine ⟨rfl,
        fun hge => absurd hge (by simp only [maxAttempts, nextAttempts] at hth ⊢; omega),
        fun _ => rfl, Nat.lt_succ_self _, ?_⟩
      intro t t' ht ht'
      have : t' = t := by
        rw [ht] at ht'
        simpa using ht'.symm
      exact this ▸ le_refl t
    · rw [if_neg hcase] at hid
      exact absurd (beq_iff_eq.mpr hid) hcase

/-- Witness for C6: one wrong-password attempt on a fresh account moves the
counter from 0 to 1. -/
theorem failed_login_increments_then_locks_c6_witness :
    ({ userActive with failedLoginAttempts := some 1 } : UserRec).failedLoginAttempts
      = some (userActive.failedLoginAttempts.getD 0 + 1) :=
  (failed_login_increments_then_locks_c6 envDemo [userActive] 1000 "a@x.com" "wrong"
    userActive { userActive with failedLoginAttempts := some 1 }
    (by decide) (by decide) (by decide) (by decide) (by decide) (by decide)
    (by decide) (by decide) (by decide)).1

/-- Every record of `revokeSessionTotal` carrying the targeted `id` is
revoked afterwards. -/
theorem revokeTotal_target_revoked (store : SessionStore) (i : Nat) (now : Time) :
    ∀ s' ∈ revokeSessionTotal store i now, s'.id = i → s'.isRevoked = true := by
  intro s' hs' hid
  simp only [revokeSessionTotal, List.mem_map] at hs'
  obtain ⟨w, hw, rfl⟩ := hs'
  by_cases hc : (w.id == i) = true
  · rw [if_pos hc]; rfl
  · rw [if_neg hc] at hid
    exact absurd (beq_iff_eq.mpr hid) hc

/-- C9. `cleanupExpiredSessions` keeps exactly the sessions whose `expiresAt`
has not passed (deleting exactly the strictly-expired ones), and a second run
at the same instant deletes nothing and leaves the store unchanged. -/
theorem cleanup_deletes_exactly_expired_and_idempotent_c9 (store : SessionStore)
    (now : Time) :
    (∀ s, s ∈ (cleanupExpiredSessions store now).1 ↔ s ∈ store ∧ ¬ s.expiresAt < now)
    ∧ cleanupExpiredSessions (cleanupExpiredSessions store now).1 now
        = ((cleanupExpiredSessions store now).1, 0) := by
  constructor
  · intro s
    simp [cleanupExpiredSessions, List.mem_filter]
  · unfold cleanupExpiredSessions
    simp [List.filter_filter]

/-- C10. `logout` completes on every input (`isSome`): with an empty token or
an unmatched hash the session table is untouched and only the cookie is
cleared; with a matched session that session is revoked; since the result is
`some` for every store and token, repeated calls with the same token succeed
every time. -/
theorem logout_always_succeeds_c10 (env : CryptoEnv) (store : SessionStore)
    (now : Time) (tok : String) :
    (logout env store now tok).isSome = true
    ∧ (tok = "" → logout env store now tok = some (store, true))
    ∧ (findByRefreshTokenHash store (env.hashToken tok) = none →
        logout env store now tok = some (store, true))
    ∧ (∀ s, tok ≠ "" → findByRefreshTokenHash store (env.hashToken tok) = some s →
        logout env store now tok = some (revokeSessionTotal store s.id now, true)
        ∧ ∀ s' ∈ revokeSessionTotal store s.id now,
            s'.id = s.id → s'.isRevoked = true) := by
  by_cases ht : tok = ""
  · subst ht
    have hred : logout env store now "" = some (store, true) := rfl
    exact ⟨by rw [hred]; rfl, fun _ => hred, fun _ => hred,
      fun s hne => absurd rfl hne⟩
  · have htb : (tok != "") = true := bne_iff_ne.mpr ht
    cases hfind : findByRefreshTokenHash store (env.hashToken tok) with
    | none =>
      have hred : logout env store now tok = some (store, true) := by
        simp only [logout, htb, if_true, hfind]
      refine ⟨by rw [hred]; rfl, fun _ => hred, fun _ => hred, ?_⟩
      intro s hne hf
      cases hf
    | some s0 =>
      have hmem : s0 ∈ store := List.mem_of_find?_eq_some hfind
      have hany : store.any (fun x => x.id == s0.id) = true :=
        List.any_eq_true.mpr ⟨s0, hmem, beq_self_eq_true s0.id⟩
      have hrs : revokeSession store s0.id now
          = some (revokeSessionTotal store s0.id now) := by
        unfold revokeSession
        rw [if_pos hany]
      have hred : logout env store now tok
          = some (revokeSessionTotal store s0.id now, true) := by
        simp only [logout, htb, if_true, hfind, hrs]
      refine ⟨by rw [hred]; rfl, fun h => absurd h ht, ?_, ?_⟩
      · intro h
        cases h
      · intro s hne hf
        have hss : s = s0 := (Option.some_inj.mp hf).symm
        subst hss
        exact ⟨hred, revokeTotal_target_revoked store s.id now⟩

/-- Witness for C10: a store with one live session matching the token. -/
theorem logout_always_succeeds_c10_witness :
    logout envDemo [sessionLive] 1000 "tok"
      = some (revokeSessionTotal [sessionLive] sessionLive.id 1000, true) :=
  ((logout_always_succeeds_c10 envDemo [sessionLive] 1000 "tok").2.2.2 sessionLive
    (by decide) (by decide)).1

/-! ## The session-store mutators as one operation type (for the
monotonicity claim) -/

/-- The mutating entry points of the session store and the auth engine:
`create`, `revokeSession`, `revokeAllUserSessions`, `updateLastUsed`, the two
cleanup jobs, and the whole rotation (`AuthService.refreshToken`). -/
inductive StoreOp where
  | createOp (dto : CreateSessionDto) (now : Time)
  | revokeOp (id : Nat) (now : Time)
  | revokeAllOp (userId : String) (now : Time)
  | lastUsedOp (id : Nat) (now : Time)
  | cleanupExpiredOp (now : Time)
  | cleanupRevokedOp (now : Time) (daysOld : Nat)
  | rotateOp (env : CryptoEnv) (users : UserStore) (now : Time) (tok : String)
      (ip ua : Option String) (mint : TokenMint)

/-- The session table after one operation.  For the two `Option`-returning
updates, `none` is a thrown P2025 that leaves the table unchanged. -/
def applyOp (store : SessionStore) : StoreOp → SessionStore
  | .createOp dto now => (createSession store dto now).2
  | .revokeOp id now => (revokeSession store id now).getD store
  | .revokeAllOp uid now => (revokeAllUserSessions store uid now).1
  | .lastUsedOp id now => (updateLastUsed store id now).getD store
  | .cleanupExpiredOp now => (cleanupExpiredSessions store now).1
  | .cleanupRevokedOp now days => (cleanupRevokedSessions store now days).1
  | .rotateOp env users now tok ip ua mint =>
      (refreshTokenOp env users store now tok ip ua mint).store

/-- Every stored id is below `freshId`. -/
theorem id_lt_freshId (store : SessionStore) :
    ∀ s ∈ store, s.id < freshId store := by
  induction store with
  | nil => intro s hs; cases hs
  | cons a l ih =>
    intro s hs
    rcases List.mem_cons.mp hs with h | h
    · subst h
      simp only [freshId, List.map_cons, List.foldr_cons]
      exact Nat.lt_succ_of_le (le_max_left _ _)
    · have := ih s h
      simp only [freshId, List.map_cons, List.foldr_cons]
      simp only [freshId] at this
      exact Nat.lt_succ_of_le (le_trans (Nat.le_of_lt_succ this) (le_max_right _ _))

/-- With pairwise-distinct ids (the primary-key invariant), two members with
the same id are the same record. -/
theorem eq_of_mem_id_nodup (store : SessionStore)
    (hn : (store.map (fun x => x.id)).Nodup) (s s' : Session)
    (hs : s ∈ store) (hs' : s' ∈ store) (hid : s'.id = s.id) : s' = s :=
  List.inj_on_of_nodup_map hn hs' hs hid

/-- Monotonicity for conditional row updates: if the update function keeps
the id and never clears `isRevoked`, the image of a revoked record stays
revoked. -/
theorem mono_condMap (p : Session → Bool) (g : Session → Session)
    (hgid : ∀ w, (g w).id = w.id)
    (hgrev : ∀ w, w.isRevoked = true → (g w).isRevoked = true)
    (store : SessionStore) (hn : (store.map (fun x => x.id)).Nodup)
    (s s' : Session) (hs : s ∈ store) (hrev : s.isRevoked = true)
    (hs' : s' ∈ store.map (fun w => if p w then g w else w))
    (hid : s'.id = s.id) : s'.isRevoked = true := by
  simp only [List.mem_map] at hs'
  obtain ⟨w, hw, rfl⟩ := hs'
  by_cases hp : p w = true
  · rw [if_pos hp] at hid ⊢
    have hwid : w.id = s.id := by rw [← hgid w]; exact hid
    have hws : w = s := eq_of_mem_id_nodup store hn s w hs hw hwid
    exact hgrev w (by rw [hws]; exact hrev)
  · rw [if_neg hp] at hid ⊢
    have hws : w = s := eq_of_mem_id_nodup store hn s w hs hw hid
    rw [hws]
    exact hrev

/-- Monotonicity for row deletion: survivors of a filter are unchanged. -/
theorem mono_filter (p : Session → Bool) (store : SessionStore)
    (hn : (store.map (fun x => x.id)).Nodup)
    (s s' : Session) (hs : s ∈ store) (hrev : s.isRevoked = true)
    (hs' : s' ∈ store.filter p) (hid : s'.id = s.id) : s'.isRevoked = true := by
  have hmem : s' ∈ store := List.mem_of_mem_filter hs'
  have hws : s' = s := eq_of_mem_id_nodup store hn s s' hs hmem hid
  rw [hws]
  exact hrev

/-- Monotonicity for row insertion: the fresh row has a fresh id, so a record
sharing an existing revoked id is that old record. -/
theorem mono_create (store : SessionStore) (dto : CreateSessionDto) (now : Time)
    (hn : (store.map (fun x => x.id)).Nodup)
    (s s' : Session) (hs : s ∈ store) (hrev : s.isRevoked = true)
    (hs' : s' ∈ (createSession store dto now).2) (hid : s'.id = s.id) :
    s'.isRevoked = true := by
  simp only [createSession, List.mem_append, List.mem_singleton] at hs'
  rcases hs' with h | h
  · have hws : s' = s := eq_of_mem_id_nodup store hn s s' hs h hid
    rw [hws]
    exact hrev
  · exfalso
    have hlt : s.id < freshId store := id_lt_freshId store s hs
    subst h
    have hfresh : freshId store = s.id := hid
    omega

/-- `revokeSessionTotal` permutes no rows and keeps every id. -/
theorem revokeTotal_map_id (store : SessionStore) (i : Nat) (now : Time) :
    (revokeSessionTotal store i now).map (fun x => x.id)
      = store.map (fun x => x.id) := by
  unfold revokeSessionTotal
  rw [List.map_map]
  apply List.map_congr_left
  intro w _
  by_cases h : (w.id == i) = true
  · simp only [Function.comp_apply, if_pos h]
    rfl
  · simp only [Function.comp_apply, if_neg h]

/-- A revoked record keeps a revoked image (same id) through
`revokeSessionTotal`. -/
theorem revokeTotal_carries_revoked (store : SessionStore) (i : Nat) (now : Time)
    (s : Session) (hs : s ∈ store) (hrev : s.isRevoked = true) :
    ∃ t ∈ revokeSessionTotal store i now, t.id = s.id ∧ t.isRevoked = true := by
  refine ⟨if s.id == i then applyRevoke now s else s, ?_, ?_, ?_⟩
  · exact List.mem_map_of_mem _ hs
  · by_cases h : (s.id == i) = true
    · rw [if_pos h]
      rfl
    · rw [if_neg h]
  · by_cases h : (s.id == i) = true
    · rw [if_pos h]; rfl
    · rw [if_neg h]
      exact hrev

/-- A successful `revokeSession` returns exactly the total-map table. -/
theorem revokeSession_eq_some (store : SessionStore) (i : Nat) (now : Time)
    (st : SessionStore) (h : revokeSession store i now = some st) :
    st = revokeSessionTotal store i now := by
  unfold revokeSession at h
  by_cases hc : store.any (fun x => x.id == i) = true
  · rw [if_pos hc] at h
    exact (Option.some_inj.mp h).symm
  · rw [if_neg hc] at h
    cases h

/-- The session table left behind by `refreshToken` has one of four shapes:
unchanged, a bulk owner revocation, a single revocation (the fail-closed JWT
branch), or a single revocation followed by the creation of the replacement
session. -/
theorem rotate_store_cases (env : CryptoEnv) (users : UserStore)
    (store : SessionStore) (now : Time) (tok : String) (ip ua : Option String)
    (mint : TokenMint) :
    (refreshTokenOp env users store now tok ip ua mint).store = store
    ∨ (∃ uid, (refreshTokenOp env users store now tok ip ua mint).store
        = (revokeAllUserSessions store uid now).1)
    ∨ (∃ i, (refreshTokenOp env users store now tok ip ua mint).store
        = revokeSessionTotal store i now)
    ∨ (∃ i dto, (refreshTokenOp env users store now tok ip ua mint).store
        = (createSession (revokeSessionTotal store i now) dto now).2) := by
  unfold refreshTokenOp
  cases hfind : findByRefreshTokenHash store (env.hashToken tok) with
  | none => left; rfl
  | some session =>
    by_cases h1 : session.isRevoked = true
    · right; left
      exact ⟨session.userId, by simp [h1]⟩
    · by_cases h2 : session.expiresAt < now
      · left
        simp [h1, h2]
      · cases hown : users.find? (fun u => u.id == session.userId) with
        | none => left; simp [h1, h2, hown]
        | some owner =>
          by_cases h3 : owner.isActive = true
          · by_cases h4 : env.jwtVerifyOk tok = true
            · cases hrs : revokeSession store session.id now with
              | none => left; simp [h1, h2, hown, h3, h4, hrs]
              | some store1 =>
                right; right; right
                refine ⟨session.id,
                  { userId := owner.id
                    sessionId := mint.sessionId
                    refreshTokenHash := env.hashToken mint.refreshToken
                    ipAddress := ip
                    userAgent := ua
                    expiresAt := now + sevenDaysMs
                    previousSessionId := some session.id }, ?_⟩
                rw [← revokeSession_eq_some store session.id now store1 hrs]
                simp [h1, h2, hown, h3, h4, hrs, generateTokens]
            · cases hrs : revokeSession store session.id now with
              | none => left; simp [h1, h2, hown, h3, h4, hrs]
              | some store1 =>
                right; right; left
                refine ⟨session.id, ?_⟩
                rw [← revokeSession_eq_some store session.id now store1 hrs]
                simp [h1, h2, hown, h3, h4, hrs]
          · left
            simp [h1, h2, hown, h3]

/-- C8. `isRevoked` is monotonic: under the primary-key invariant, for every
store operation (create, revoke one, revoke all, rotate, update last-used,
both cleanups), a record that is revoked beforehand is still revoked in every
post-state record carrying its id. -/
theorem isRevoked_monotonic_c8 (store : SessionStore) (op : StoreOp)
    (s s' : Session)
    (hn : (store.map (fun x => x.id)).Nodup)
    (hs : s ∈ store) (hrev : s.isRevoked = true)
    (hs' : s' ∈ applyOp store op) (hid : s'.id = s.id) :
    s'.isRevoked = true := by
  cases op with
  | createOp dto now =>
    exact mono_create store dto now hn s s' hs hrev hs' hid
  | revokeOp i now =>
    simp only [applyOp] at hs'
    by_cases hc : store.any (fun x => x.id == i) = true
    · rw [revokeSession, if_pos hc, Option.getD_some] at hs'
      exact mono_condMap (fun w => w.id == i) (applyRevoke now) (fun w => rfl)
        (fun w _ => rfl) store hn s s' hs hrev hs' hid
    · rw [revokeSession, if_neg hc, Option.getD_none] at hs'
      have hws : s' = s := eq_of_mem_id_nodup store hn s s' hs hs' hid
      rw [hws]
      exact hrev
  | revokeAllOp uid now =>
    simp only [applyOp, revokeAllUserSessions] at hs'
    exact mono_condMap (fun w => w.userId == uid && !w.isRevoked) (applyRevoke now)
      (fun w => rfl) (fun w _ => rfl) store hn s s' hs hrev hs' hid
  | lastUsedOp i now =>
    simp only [applyOp] at hs'
    by_cases hc : store.any (fun x => x.id == i) = true
    · rw [updateLastUsed, if_pos hc, Option.getD_some] at hs'
      exact mono_condMap (fun w => w.id == i) (fun w => { w with lastUsedAt := some now })
        (fun w => rfl) (fun w hw => hw) store hn s s' hs hrev hs' hid
    · rw [updateLastUsed, if_neg hc, Option.getD_none] at hs'
      have hws : s' = s := eq_of_mem_id_nodup store hn s s' hs hs' hid
      rw [hws]
      exact hrev
  | cleanupExpiredOp now =>
    simp only [applyOp, cleanupExpiredSessions] at hs'
    exact mono_filter _ store hn s s' hs hrev hs' hid
  | cleanupRevokedOp now days =>
    simp only [applyOp, cleanupRevokedSessions] at hs'
    exact mono_filter _ store hn s s' hs hrev hs' hid
  | rotateOp env users now tok ip ua mint =>
    simp only [applyOp] at hs'
    rcases rotate_store_cases env users store now tok ip ua mint with
      hcase | ⟨uid, hcase⟩ | ⟨i, hcase⟩ | ⟨i, dto, hcase⟩
    · rw [hcase] at hs'
      have hws : s' = s := eq_of_mem_id_nodup store hn s s' hs hs' hid
      rw [hws]
      exact hrev
    · rw [hcase] at hs'
      simp only [revokeAllUserSessions] at hs'
      exact mono_condMap (fun w => w.userId == uid && !w.isRevoked) (applyRevoke now)
        (fun w => rfl) (fun w _ => rfl) store hn s s' hs hrev hs' hid
    · rw [hcase] at hs'
      exact mono_condMap (fun w => w.id == i) (applyRevoke now) (fun w => rfl)
        (fun w _ => rfl) store hn s s' hs hrev hs' hid
    · rw [hcase] at hs'
      have hn1 : ((revokeSessionTotal store i now).map (fun x => x.id)).Nodup := by
        rw [revokeTotal_map_id]
        exact hn
      obtain ⟨t, htmem, htid, htrev⟩ :=
        revokeTotal_carries_revoked store i now s hs hrev
      exact mono_create (revokeSessionTotal store i now) dto now hn1 t s' htmem htrev
        hs' (by rw [hid, ← htid])

/-- Witness for C8: bulk revocation applied to a table already holding a
revoked lineage next to a live one. -/
theorem isRevoked_monotonic_c8_witness : sessionRevoked.isRevoked = true :=
  isRevoked_monotonic_c8 [sessionRevoked, sessionOtherOwner]
    (.revokeAllOp "u9" 2000) sessionRevoked sessionRevoked (by decide) (by decide)
    (by decide) (by decide) (by decide)

end LabyrinthAuth
